import Mathlib

/-!
Verification of the registration/capacity core of the SULAM volunteerism
platform (React frontend + FastAPI backend). The frontend TypeScript sources
are embedded directly; the backend (RegistrationEngine, AggregationService,
BadgeEngine, BookmarkStore endpoints) is absent from the repository snapshot,
so its operations are modelled from the specification and the README of the
repository.
-/

namespace SULAM

/- ==========================================
   Frontend embedding: useUserRole
   (frontend/src/hooks/useUserRole.ts, validated variant)
   ========================================== -/

/-- The two role strings of the UserRole enum (frontend/src/types/index.ts):
VOLUNTEER = "volunteer", ORGANIZER = "organizer". -/
def userRoleValues : List String := ["volunteer", "organizer"]

/-- Result of the useUserRole hook: the resolved role string plus the two
derived flags. -/
structure UseUserRoleResult where
  role : String
  isVolunteer : Bool
  isOrganizer : Bool
deriving DecidableEq, Repr

/-- Embedding of useUserRole (frontend/src/hooks/useUserRole.ts): the raw
role read from Clerk unsafeMetadata is validated against the UserRole enum
values and defaults to VOLUNTEER when missing or invalid; the flags compare
the resolved role against the two enum values. -/
def useUserRole (rawRole : Option String) : UseUserRoleResult :=
  let isValidRole : Bool :=
    match rawRole with
    | some s => userRoleValues.contains s
    | none => false
  let role : String :=
    if isValidRole then rawRole.getD "volunteer" else "volunteer"
  { role := role
    isVolunteer := role == "volunteer"
    isOrganizer := role == "organizer" }

/- ==========================================
   Frontend embedding: EventFeed bookmark toggle
   (pages/Event/EventFeed.tsx, handleBookmark)
   ========================================== -/

/-- Embedding of the bookmark list update in handleBookmark (EventFeed):
if the event is currently bookmarked the list is filtered to remove it,
otherwise the event id is appended. -/
def toggleBookmarkList (userBookmarks : List String) (eventId : String) : List String :=
  if userBookmarks.contains eventId then
    userBookmarks.filter (fun id => id != eventId)
  else
    userBookmarks ++ [eventId]

/- ==========================================
   Frontend embedding: EventFeed display filter and join gating
   (pages/Event/EventFeed.tsx, displayedEvents / join button)
   ========================================== -/

/-- The fields of an Event the feed filter and the join button read
(frontend/src/types/index.ts, Event). -/
structure FeedEvent where
  id : String
  location : String
  category : String
  currentVolunteers : Nat
  maxVolunteers : Nat
deriving DecidableEq, Repr

/-- Embedding of the keywords record of the location filter in
displayedEvents (EventFeed): unknown filters map to the empty list. -/
def locationKeywords (locationFilter : String) : List String :=
  if locationFilter == "KK" then ["KK", "College", "Nazrin"]
  else if locationFilter == "Faculty" then ["FCSIT", "Faculty", "Block"]
  else if locationFilter == "Outdoors" then ["Tasik", "Rimba"]
  else []

/-- JavaScript String.includes: some position of the haystack starts with
the needle. -/
def stringIncludes (s sub : String) : Bool :=
  (List.range (s.data.length + 1)).any (fun i => sub.data.isPrefixOf (s.data.drop i))

/-- Embedding of the predicate of the displayedEvents filter (EventFeed):
events at or over quota are hidden first; then the client-side location
filter applies. -/
def keepInFeed (locationFilter : String) (e : FeedEvent) : Bool :=
  if e.maxVolunteers ≤ e.currentVolunteers then false
  else if locationFilter == "All" then true
  else (locationKeywords locationFilter).any (fun k => stringIncludes e.location k)

/-- Embedding of displayedEvents (EventFeed): the fetched events filtered by
keepInFeed. -/
def displayedEvents (locationFilter : String) (events : List FeedEvent) : List FeedEvent :=
  events.filter (keepInFeed locationFilter)

/-- Embedding of isFull (EventFeed): currentVolunteers at or over
maxVolunteers. -/
def isFull (e : FeedEvent) : Bool :=
  e.maxVolunteers ≤ e.currentVolunteers

/-- Embedding of the disabled condition of the Join button (EventFeed):
a join is already in flight for this event, or the event is full. -/
def joinButtonDisabled (joiningId : Option String) (e : FeedEvent) : Bool :=
  joiningId == some e.id || isFull e

/- ==========================================
   Core model (spec-modelled): EventStore + RegistrationEngine
   The FastAPI backend (backend/main.py) is absent from the repository
   snapshot; only its HTTP callers are present.
   ========================================== -/

/-- Event lifecycle status (spec section 3): upcoming or completed. -/
inductive EventStatus
  | upcoming
  | completed
deriving DecidableEq, Repr

/-- Registration lifecycle status (spec section 3). -/
inductive RegStatus
  | pending
  | confirmed
  | rejected
deriving DecidableEq, Repr

/-- Legal targets of setStatus (spec section 4.1): confirmed or rejected. -/
inductive Target
  | confirmed
  | rejected
deriving DecidableEq, Repr

/-- The registration status a setStatus target stands for. -/
def Target.toStatus : Target → RegStatus
  | .confirmed => RegStatus.confirmed
  | .rejected => RegStatus.rejected

/-- Modelled from the spec: the Event record of the EventStore (spec
section 3); the backend models.py is missing from the snapshot. -/
structure Event where
  id : Nat
  organizerId : Nat
  title : String
  date : String
  location : String
  category : String
  maxVolunteers : Nat
  currentVolunteers : Nat
  status : EventStatus
deriving DecidableEq, Repr

/-- Modelled from the spec: the Registration record (spec section 3); the
backend models.py is missing from the snapshot. -/
structure Registration where
  id : Nat
  eventId : Nat
  userId : Nat
  status : RegStatus
deriving DecidableEq, Repr

/-- The typed business errors of the core (spec section 7). -/
inductive CoreError
  | AlreadyRegistered
  | EventNotFound
  | RegistrationNotFound
  | QuotaExceeded
  | InvalidTransition
  | ValidationError
deriving DecidableEq, Repr

/-- Modelled from the spec: the single consistent data store behind the
core, with counters supplying fresh primary keys. -/
structure CoreState where
  events : List Event
  regs : List Registration
  nextEventId : Nat
  nextRegId : Nat
deriving DecidableEq, Repr

/-- The empty store. -/
def initState : CoreState := ⟨[], [], 0, 0⟩

/-- First event of the store carrying the given id, if any. -/
def findEventL (events : List Event) (eventId : Nat) : Option Event :=
  events.find? (fun e => e.id == eventId)

/-- First event of the state carrying the given id, if any. -/
def findEvent (s : CoreState) (eventId : Nat) : Option Event :=
  findEventL s.events eventId

/-- First registration of the state carrying the given id, if any. -/
def findReg (s : CoreState) (regId : Nat) : Option Registration :=
  s.regs.find? (fun r => r.id == regId)

/-- Row update of the matching event. -/
def updateEventList (events : List Event) (eventId : Nat) (f : Event → Event) : List Event :=
  events.map (fun e => if e.id == eventId then f e else e)

/-- Row update of the matching registration status. -/
def updateRegList (regs : List Registration) (regId : Nat) (st : RegStatus) : List Registration :=
  regs.map (fun r => if r.id == regId then { r with status := st } else r)

/-- Modelled from the spec: requestJoin (spec section 4.1). Fails with
EventNotFound on an unknown event and with AlreadyRegistered when a
registration for the (eventId, userId) pair exists in any status; capacity
is not checked at join time; otherwise a pending registration with a fresh
id is created. The backend join endpoint is missing from the snapshot. -/
def requestJoin (eventId userId : Nat) (s : CoreState) :
    Except CoreError (Registration × CoreState) :=
  match findEvent s eventId with
  | none => .error CoreError.EventNotFound
  | some _ =>
    if s.regs.any (fun r => r.eventId == eventId && r.userId == userId) then
      .error CoreError.AlreadyRegistered
    else
      let r : Registration := ⟨s.nextRegId, eventId, userId, RegStatus.pending⟩
      .ok (r, { s with regs := s.regs ++ [r], nextRegId := s.nextRegId + 1 })

/-- Modelled from the spec: setStatus (spec section 4.1, steps 1-6), the
sole capacity-mutating operation, executed as one atomic unit inside the
per-event critical section. A terminal registration equal to the target
returns success idempotently; a terminal registration different from the
target fails with InvalidTransition; confirmation at exhausted quota fails
with QuotaExceeded and leaves the registration pending; otherwise the
status change and the counter increment happen together. The backend
registration endpoint is missing from the snapshot. -/
def setStatus (regId : Nat) (target : Target) (s : CoreState) :
    Except CoreError (Registration × CoreState) :=
  match findReg s regId with
  | none => .error CoreError.RegistrationNotFound
  | some r =>
    match findEvent s r.eventId with
    | none => .error CoreError.EventNotFound
    | some ev =>
      if r.status = target.toStatus then
        .ok (r, s)
      else if r.status ≠ RegStatus.pending then
        .error CoreError.InvalidTransition
      else
        match target with
        | .confirmed =>
          if ev.currentVolunteers = ev.maxVolunteers then
            .error CoreError.QuotaExceeded
          else
            .ok ({ r with status := RegStatus.confirmed },
              { s with
                regs := updateRegList s.regs regId RegStatus.confirmed,
                events := updateEventList s.events ev.id
                  (fun e => { e with currentVolunteers := e.currentVolunteers + 1 }) })
        | .rejected =>
          .ok ({ r with status := RegStatus.rejected },
            { s with regs := updateRegList s.regs regId RegStatus.rejected })

/-- Modelled from the spec: createEvent (spec sections 3 and 6). The
quota must be a positive integer; the event starts upcoming with zero
confirmed volunteers and a fresh id. The backend event endpoint is missing
from the snapshot. -/
def createEvent (organizerId maxVolunteers : Nat)
    (title date location category : String) (s : CoreState) :
    Except CoreError (Event × CoreState) :=
  if maxVolunteers = 0 then .error CoreError.ValidationError
  else
    let e : Event :=
      ⟨s.nextEventId, organizerId, title, date, location, category,
        maxVolunteers, 0, EventStatus.upcoming⟩
    .ok (e, { s with events := s.events ++ [e], nextEventId := s.nextEventId + 1 })

/-- Modelled from the spec: updateEvent (spec section 6) rewrites the
details of an event; currentVolunteers is mutated only by the
RegistrationEngine, so the counter and the status are preserved and the
new quota is validated against the data-model invariant (positive, at
least the current counter). The backend event endpoint is missing from
the snapshot. -/
def updateEvent (eventId maxVolunteers : Nat)
    (title date location category : String) (s : CoreState) :
    Except CoreError (Event × CoreState) :=
  match findEvent s eventId with
  | none => .error CoreError.EventNotFound
  | some ev =>
    if maxVolunteers = 0 then .error CoreError.ValidationError
    else if maxVolunteers < ev.currentVolunteers then .error CoreError.ValidationError
    else
      let f : Event → Event := fun e =>
        { e with
          title := title, date := date, location := location,
          category := category, maxVolunteers := maxVolunteers }
      .ok (f ev, { s with events := updateEventList s.events ev.id f })

/-- Modelled from the spec: setEventStatus (spec sections 3 and 6). The
status transitions upcoming to completed only, never reversed: completed
is terminal, and a reversal attempt fails with InvalidTransition; setting
the status an event already holds is a no-op success. The backend event
endpoint is missing from the snapshot. -/
def setEventStatus (eventId : Nat) (target : EventStatus) (s : CoreState) :
    Except CoreError (Event × CoreState) :=
  match findEvent s eventId with
  | none => .error CoreError.EventNotFound
  | some ev =>
    if ev.status = EventStatus.completed ∧ target = EventStatus.upcoming then
      .error CoreError.InvalidTransition
    else
      let f : Event → Event := fun e => { e with status := target }
      .ok (f ev, { s with events := updateEventList s.events ev.id f })

/-- The operations a client can issue against the core. -/
inductive Op
  | requestJoin (eventId userId : Nat)
  | setStatus (regId : Nat) (target : Target)
  | createEvent (organizerId maxVolunteers : Nat) (title date location category : String)
  | updateEvent (eventId maxVolunteers : Nat) (title date location category : String)
  | setEventStatus (eventId : Nat) (target : EventStatus)
deriving DecidableEq, Repr

/-- State after one operation: the new state on success, the old state on
a typed error (errors commit no partial state, spec section 7). -/
def applyOp : Op → CoreState → CoreState
  | .requestJoin eventId userId, s =>
    match requestJoin eventId userId s with
    | .ok x => x.2
    | .error _ => s
  | .setStatus regId target, s =>
    match setStatus regId target s with
    | .ok x => x.2
    | .error _ => s
  | .createEvent organizerId maxVolunteers title date location category, s =>
    match createEvent organizerId maxVolunteers title date location category s with
    | .ok x => x.2
    | .error _ => s
  | .updateEvent eventId maxVolunteers title date location category, s =>
    match updateEvent eventId maxVolunteers title date location category s with
    | .ok x => x.2
    | .error _ => s
  | .setEventStatus eventId target, s =>
    match setEventStatus eventId target s with
    | .ok x => x.2
    | .error _ => s

/-- State after a sequence of operations. -/
def execOps (ops : List Op) (s : CoreState) : CoreState :=
  ops.foldl (fun t op => applyOp op t) s

/- ==========================================
   AggregationService (spec-modelled): getOrganizerDashboard
   The backend /organizers/dashboard endpoint is missing from the
   snapshot; only its caller getOrganizerStats (services/api.ts) is
   present.
   ========================================== -/

/-- Modelled from the spec: the Feedback record (spec section 3); the
backend models.py is missing from the snapshot. -/
structure Feedback where
  eventId : Nat
  userId : Nat
  rating : Nat
deriving DecidableEq, Repr

/-- Rounding of a rational to one decimal place. -/
def round1 (q : ℚ) : ℚ := ((round (10 * q) : ℤ) : ℚ) / 10

/-- One step of the single-pass grouping: charge one rating to the
running (eventId, sum, count) triple of its event, creating the triple
on first sight. -/
def bumpStats (stats : List (Nat × Nat × Nat)) (eventId rating : Nat) :
    List (Nat × Nat × Nat) :=
  match stats with
  | [] => [(eventId, rating, 1)]
  | (i, sum, cnt) :: rest =>
    if i == eventId then (i, sum + rating, cnt + 1) :: rest
    else (i, sum, cnt) :: bumpStats rest eventId rating

/-- Modelled from the spec: the single pass over all Feedback rows that
groups them by eventId (spec section 4.2), producing per-event rating sum
and row count. -/
def collectStats (fbs : List Feedback) : List (Nat × Nat × Nat) :=
  fbs.foldl (fun st f => bumpStats st f.eventId f.rating) []

/-- Sum and count recorded for an event by the grouping pass; (0, 0) for
an event with no feedback rows. -/
def lookupStats (stats : List (Nat × Nat × Nat)) (eventId : Nat) : Nat × Nat :=
  match stats.find? (fun x => x.1 == eventId) with
  | some x => x.2
  | none => (0, 0)

/-- An event of the organizer dashboard together with its aggregated
stats (frontend/src/types/index.ts, EventWithStats). -/
structure EventStats where
  event : Event
  avgRating : ℚ
  feedbackCount : Nat
deriving DecidableEq, Repr

/-- Modelled from the spec: getOrganizerDashboard (spec section 4.2).
All events owned by the organizer are paired with the stats of the
single grouping pass; an event with zero feedback rows gets avgRating 0
and feedbackCount 0, and otherwise the exact mean rounded to one decimal
place. The backend dashboard endpoint is missing from the snapshot. -/
def getOrganizerDashboard (organizerId : Nat) (events : List Event)
    (fbs : List Feedback) : List EventStats :=
  let stats := collectStats fbs
  (events.filter (fun e => e.organizerId == organizerId)).map (fun e =>
    let sc := lookupStats stats e.id
    { event := e
      avgRating := if sc.2 = 0 then 0 else round1 ((sc.1 : ℚ) / (sc.2 : ℚ))
      feedbackCount := sc.2 })

/-- The ratings of the feedback rows of one event, in row order: the
reference value the single-pass grouping must agree with. -/
def ratingsFor (fbs : List Feedback) (eventId : Nat) : List Nat :=
  (fbs.filter (fun f => f.eventId == eventId)).map Feedback.rating

/- ==========================================
   BadgeEngine (spec-modelled): getUserBadges
   The backend /users/{id}/badges endpoint is missing from the snapshot;
   only its caller getUserBadges (services/api.ts) is present.
   ========================================== -/

/-- Modelled from the spec: the qualifying-registration test of the
BadgeEngine (spec section 4.3): the registration is confirmed and its
event is completed. -/
def isCompletedConfirmed (events : List Event) (r : Registration) : Bool :=
  r.status == RegStatus.confirmed &&
    match findEventL events r.eventId with
    | some ev => ev.status == EventStatus.completed
    | none => false

/-- Modelled from the spec: the completed-mission count of a user (spec
section 4.3). -/
def completedCount (userId : Nat) (regs : List Registration) (events : List Event) : Nat :=
  (regs.filter (fun r => r.userId == userId && isCompletedConfirmed events r)).length

/-- Modelled from the spec: the cumulative badge thresholds (spec section
4.3): count at least 1 grants First Step, at least 3 adds Helping Hand,
at least 5 adds Super Star. -/
def badgesOfCount (c : Nat) : List String :=
  (if 1 ≤ c then ["First Step"] else []) ++
  (if 3 ≤ c then ["Helping Hand"] else []) ++
  (if 5 ≤ c then ["Super Star"] else [])

/-- Modelled from the spec: getUserBadges (spec section 4.3), a pull-based
derived view of the registration count. The backend badges endpoint is
missing from the snapshot. -/
def getUserBadges (userId : Nat) (regs : List Registration) (events : List Event) :
    List String :=
  badgesOfCount (completedCount userId regs events)

/- ==========================================
   Theorems
   ========================================== -/

/-- Claim C10: useUserRole always returns a valid role: whenever the raw
metadata role is missing or is not one of the two enum values, the
resolved role is volunteer; and the isVolunteer and isOrganizer flags are
mutually exclusive with exactly one of them true. -/
theorem useUserRole_total_and_exclusive (rawRole : Option String) :
    ((useUserRole rawRole).role = "volunteer" ∨ (useUserRole rawRole).role = "organizer") ∧
    (rawRole ≠ some "volunteer" → rawRole ≠ some "organizer" →
      (useUserRole rawRole).role = "volunteer") ∧
    ((useUserRole rawRole).isVolunteer = true ↔ ¬ (useUserRole rawRole).isOrganizer = true) := by
  cases rawRole with
  | none => simp [useUserRole]
  | some s =>
    by_cases h1 : s = "volunteer"
    · subst h1; simp [useUserRole, userRoleValues]
    · by_cases h2 : s = "organizer"
      · subst h2; simp [useUserRole, userRoleValues]
      · simp [useUserRole, userRoleValues, h1, h2]

/-- Witness for C10: the invalid role string "hacker" resolves to the
volunteer role. -/
theorem useUserRole_total_and_exclusive_witness :
    (useUserRole (some "hacker")).role = "volunteer" :=
  (useUserRole_total_and_exclusive (some "hacker")).2.1
    (by decide) (by decide)

/-- Claim C7: toggleBookmark flips the membership of the event in the
bookmark set and returns the new set: after one toggle the event is a
member exactly when it was not one before, every other id keeps its
membership, and applying the toggle twice is the identity on the
membership relation, so a single toggle is not idempotent. -/
theorem toggleBookmark_flips_membership (bm : List String) (eventId : String) :
    (eventId ∈ toggleBookmarkList bm eventId ↔ eventId ∉ bm) ∧
    (∀ x, x ≠ eventId → (x ∈ toggleBookmarkList bm eventId ↔ x ∈ bm)) ∧
    (∀ x, x ∈ toggleBookmarkList (toggleBookmarkList bm eventId) eventId ↔ x ∈ bm) := by
  by_cases h : eventId ∈ bm
  · have h1 : toggleBookmarkList bm eventId = bm.filter (fun id => id != eventId) := by
      simp [toggleBookmarkList, h]
    have hnot : eventId ∉ toggleBookmarkList bm eventId := by
      rw [h1]; simp [List.mem_filter]
    have h2 : toggleBookmarkList (toggleBookmarkList bm eventId) eventId =
        toggleBookmarkList bm eventId ++ [eventId] := by
      rw [toggleBookmarkList, if_neg (by simpa using hnot)]
    refine ⟨by simp [h1, h, List.mem_filter], ?_, ?_⟩
    · intro x hx
      simp [h1, List.mem_filter, hx]
    · intro x
      rw [h2, h1]
      by_cases hx : x = eventId
      · subst hx; simp [h]
      · simp [List.mem_filter, hx]
  · have h1 : toggleBookmarkList bm eventId = bm ++ [eventId] := by
      simp [toggleBookmarkList, h]
    have hmem : eventId ∈ toggleBookmarkList bm eventId := by simp [h1]
    have h2 : toggleBookmarkList (toggleBookmarkList bm eventId) eventId =
        (bm ++ [eventId]).filter (fun id => id != eventId) := by
      rw [toggleBookmarkList, if_pos (by simpa using hmem), h1]
    refine ⟨by simp [h1, h], ?_, ?_⟩
    · intro x hx
      simp [h1, hx]
    · intro x
      rw [h2]
      by_cases hx : x = eventId
      · subst hx; simp [h]
      · simp [List.mem_filter, hx]

/-- Witness for C7: toggling event id b on the list holding only a adds
the membership, a second toggle returns to the original membership. -/
theorem toggleBookmark_flips_membership_witness :
    ("b" ∈ toggleBookmarkList ["a"] "b") ∧
      ¬ ("b" ∈ toggleBookmarkList (toggleBookmarkList ["a"] "b") "b") := by
  constructor
  · exact (toggleBookmark_flips_membership ["a"] "b").1.mpr (by decide)
  · intro hmem
    have := ((toggleBookmark_flips_membership ["a"] "b").2.2 "b").mp hmem
    exact absurd this (by decide)

/-- Claim C9: in the event feed every fetched event at or over quota is
excluded from the displayed list for every location filter, and the join
button is disabled whenever an event is full, so the client never issues
a join request for an event it knows to be at quota. -/
theorem feed_hides_full_events (locationFilter : String) (events : List FeedEvent)
    (e : FeedEvent) :
    (e ∈ displayedEvents locationFilter events →
      e.currentVolunteers < e.maxVolunteers) ∧
    (isFull e = true → e ∉ displayedEvents locationFilter events) ∧
    (∀ joiningId, isFull e = true → joinButtonDisabled joiningId e = true) := by
  refine ⟨?_, ?_, ?_⟩
  · intro hmem
    have hkeep : keepInFeed locationFilter e = true := (List.mem_filter.mp hmem).2
    by_contra hlt
    have hfull : e.maxVolunteers ≤ e.currentVolunteers := by omega
    simp [keepInFeed, hfull] at hkeep
  · intro hfull hmem
    have hkeep : keepInFeed locationFilter e = true := (List.mem_filter.mp hmem).2
    have : e.maxVolunteers ≤ e.currentVolunteers := by
      simpa [isFull] using hfull
    simp [keepInFeed, this] at hkeep
  · intro joiningId hfull
    simp [joinButtonDisabled, hfull]

/-- Witness for C9: a full event (2 of 2 volunteers) is not displayed and
its join button is disabled. -/
theorem feed_hides_full_events_witness :
    (⟨"e1", "DTC", "Welfare", 2, 2⟩ : FeedEvent) ∉
        displayedEvents "All" [⟨"e1", "DTC", "Welfare", 2, 2⟩] ∧
      joinButtonDisabled none (⟨"e1", "DTC", "Welfare", 2, 2⟩ : FeedEvent) = true := by
  constructor
  · exact (feed_hides_full_events "All" [⟨"e1", "DTC", "Welfare", 2, 2⟩]
      ⟨"e1", "DTC", "Welfare", 2, 2⟩).2.1 (by decide)
  · exact (feed_hides_full_events "All" [⟨"e1", "DTC", "Welfare", 2, 2⟩]
      ⟨"e1", "DTC", "Welfare", 2, 2⟩).2.2 none (by decide)

/-- Membership in the cumulative badge list is exactly the threshold
test, and the boundary counts 3 and 5 produce exactly the first two and
all three badges. -/
theorem badgesOfCount_spec (c : Nat) :
    (("First Step" ∈ badgesOfCount c) ↔ 1 ≤ c) ∧
    (("Helping Hand" ∈ badgesOfCount c) ↔ 3 ≤ c) ∧
    (("Super Star" ∈ badgesOfCount c) ↔ 5 ≤ c) ∧
    (c = 3 → badgesOfCount c = ["First Step", "Helping Hand"]) ∧
    (c = 5 → badgesOfCount c = ["First Step", "Helping Hand", "Super Star"]) := by
  refine ⟨?_, ?_, ?_, ?_, ?_⟩
  · by_cases h1 : 1 ≤ c <;> by_cases h3 : 3 ≤ c <;> by_cases h5 : 5 ≤ c <;>
      simp [badgesOfCount, h1, h3, h5]
  · by_cases h1 : 1 ≤ c <;> by_cases h3 : 3 ≤ c <;> by_cases h5 : 5 ≤ c <;>
      simp [badgesOfCount, h1, h3, h5]
  · by_cases h1 : 1 ≤ c <;> by_cases h3 : 3 ≤ c <;> by_cases h5 : 5 ≤ c <;>
      simp [badgesOfCount, h1, h3, h5]
  · intro h; subst h; rfl
  · intro h; subst h; rfl

/-- Claim C6: getUserBadges is determined by the count of confirmed
registrations of the user whose event is completed, via the cumulative
thresholds 1, 3 and 5: membership of each badge is exactly its threshold
test, a count of exactly 3 yields exactly the first two badges, and a
count of exactly 5 yields all three. -/
theorem getUserBadges_thresholds (userId : Nat) (regs : List Registration)
    (events : List Event) :
    (("First Step" ∈ getUserBadges userId regs events) ↔
      1 ≤ completedCount userId regs events) ∧
    (("Helping Hand" ∈ getUserBadges userId regs events) ↔
      3 ≤ completedCount userId regs events) ∧
    (("Super Star" ∈ getUserBadges userId regs events) ↔
      5 ≤ completedCount userId regs events) ∧
    (completedCount userId regs events = 3 →
      getUserBadges userId regs events = ["First Step", "Helping Hand"]) ∧
    (completedCount userId regs events = 5 →
      getUserBadges userId regs events = ["First Step", "Helping Hand", "Super Star"]) :=
  badgesOfCount_spec (completedCount userId regs events)

/-- Witness for C6: a user with exactly three confirmed registrations on
completed events holds exactly the first two badges. -/
theorem getUserBadges_thresholds_witness :
    getUserBadges 7
        [⟨0, 0, 7, RegStatus.confirmed⟩, ⟨1, 1, 7, RegStatus.confirmed⟩,
          ⟨2, 2, 7, RegStatus.confirmed⟩]
        [⟨0, 9, "a", "", "", "", 5, 1, EventStatus.completed⟩,
          ⟨1, 9, "b", "", "", "", 5, 1, EventStatus.completed⟩,
          ⟨2, 9, "c", "", "", "", 5, 1, EventStatus.completed⟩] =
      ["First Step", "Helping Hand"] :=
  (getUserBadges_thresholds 7
    [⟨0, 0, 7, RegStatus.confirmed⟩, ⟨1, 1, 7, RegStatus.confirmed⟩,
      ⟨2, 2, 7, RegStatus.confirmed⟩]
    [⟨0, 9, "a", "", "", "", 5, 1, EventStatus.completed⟩,
      ⟨1, 9, "b", "", "", "", 5, 1, EventStatus.completed⟩,
      ⟨2, 9, "c", "", "", "", 5, 1, EventStatus.completed⟩]).2.2.2.1 (by decide)

/-- Stats lookup on the empty grouping accumulator. -/
theorem lookupStats_nil (i : Nat) : lookupStats [] i = (0, 0) := by
  simp [lookupStats, List.find?]

/-- Stats lookup steps over a cons cell by comparing the head key. -/
theorem lookupStats_cons (k sum cnt : Nat) (tl : List (Nat × Nat × Nat)) (i : Nat) :
    lookupStats ((k, sum, cnt) :: tl) i =
      if k = i then (sum, cnt) else lookupStats tl i := by
  by_cases h : k = i
  · subst h; simp [lookupStats, List.find?_cons]
  · have hb : (k == i) = false := by simpa using h
    simp [lookupStats, List.find?_cons, hb, h]

/-- One grouping step charges one rating to exactly the triple of its
event and leaves every other triple unchanged. -/
theorem lookupStats_bumpStats (st : List (Nat × Nat × Nat)) (j rating i : Nat) :
    lookupStats (bumpStats st j rating) i =
      if i = j then ((lookupStats st j).1 + rating, (lookupStats st j).2 + 1)
      else lookupStats st i := by
  induction st with
  | nil =>
    rw [show bumpStats [] j rating = [(j, rating, 1)] from rfl]
    rw [lookupStats_cons]
    by_cases h : i = j
    · subst h; simp [lookupStats_nil]
    · have hji : ¬ j = i := fun hc => h hc.symm
      simp [lookupStats_nil, h, hji]
  | cons hd tl ih =>
    obtain ⟨k, sum, cnt⟩ := hd
    by_cases hkj : k = j
    · subst hkj
      have hbump : bumpStats ((k, sum, cnt) :: tl) k rating =
          (k, sum + rating, cnt + 1) :: tl := by
        simp [bumpStats]
      rw [hbump, lookupStats_cons, lookupStats_cons, lookupStats_cons]
      by_cases hik : i = k
      · subst hik; simp
      · have hki : ¬ k = i := fun hc => hik hc.symm
        simp [hik, hki]
    · have hbk : (k == j) = false := by simpa using hkj
      have hbump : bumpStats ((k, sum, cnt) :: tl) j rating =
          (k, sum, cnt) :: bumpStats tl j rating := by
        simp [bumpStats, hbk]
      rw [hbump, lookupStats_cons, lookupStats_cons, lookupStats_cons, ih]
      by_cases hik : k = i
      · subst hik
        simp [hkj]
      · simp [hik, hkj]

/-- The grouping fold started from any accumulator adds the per-event sum
and count of the remaining rows to the accumulator entry. -/
theorem lookupStats_foldl (fbs : List Feedback) (st : List (Nat × Nat × Nat)) (i : Nat) :
    lookupStats (fbs.foldl (fun t f => bumpStats t f.eventId f.rating) st) i =
      ((ratingsFor fbs i).sum + (lookupStats st i).1,
        (ratingsFor fbs i).length + (lookupStats st i).2) := by
  induction fbs generalizing st with
  | nil => simp [ratingsFor]
  | cons f rest ih =>
    rw [List.foldl_cons, ih]
    rw [lookupStats_bumpStats]
    by_cases h : f.eventId = i
    · have hfi : i = f.eventId := h.symm
      simp only [if_pos hfi, ratingsFor, List.filter_cons, h]
      simp [h, Prod.ext_iff]
      constructor <;> omega
    · have hfi : ¬ i = f.eventId := fun hc => h hc.symm
      simp only [if_neg hfi, ratingsFor, List.filter_cons]
      simp [h]

/-- Refinement of the single-pass grouping: for every event id the pass
computes exactly the sum and the count of the feedback rows of that
event. -/
theorem collectStats_spec (fbs : List Feedback) (i : Nat) :
    lookupStats (collectStats fbs) i =
      ((ratingsFor fbs i).sum, (ratingsFor fbs i).length) := by
  have := lookupStats_foldl fbs [] i
  simpa [collectStats, lookupStats, List.find?] using this

/-- Claim C5: getOrganizerDashboard attaches to every event owned by the
organizer a feedbackCount equal to the number of its feedback rows and an
avgRating equal to the exact mean of its ratings rounded to one decimal
place, with avgRating 0 and feedbackCount 0 for an event without
feedback; conversely every dashboard row belongs to the organizer and
satisfies the same stats equations. -/
theorem organizerDashboard_stats (organizerId : Nat) (events : List Event)
    (fbs : List Feedback) :
    (∀ e ∈ events, e.organizerId = organizerId →
      ({ event := e
         avgRating :=
           if (ratingsFor fbs e.id).length = 0 then 0
           else round1 (((ratingsFor fbs e.id).sum : ℚ) / ((ratingsFor fbs e.id).length : ℚ))
         feedbackCount := (ratingsFor fbs e.id).length } : EventStats) ∈
        getOrganizerDashboard organizerId events fbs) ∧
    (∀ x ∈ getOrganizerDashboard organizerId events fbs,
      x.event.organizerId = organizerId ∧
      x.feedbackCount = (ratingsFor fbs x.event.id).length ∧
      (x.feedbackCount = 0 → x.avgRating = 0) ∧
      (0 < x.feedbackCount →
        x.avgRating =
          round1 (((ratingsFor fbs x.event.id).sum : ℚ) /
            ((ratingsFor fbs x.event.id).length : ℚ)))) := by
  constructor
  · intro e hmem horg
    apply List.mem_map.mpr
    refine ⟨e, List.mem_filter.mpr ⟨hmem, by simp [horg]⟩, ?_⟩
    simp [collectStats_spec]
  · intro x hx
    obtain ⟨e, hef, hval⟩ := List.mem_map.mp hx
    have horg : e.organizerId = organizerId := by
      have := (List.mem_filter.mp hef).2
      simpa using this
    subst hval
    refine ⟨horg, ?_, ?_, ?_⟩
    · simp [collectStats_spec]
    · intro h0
      simp [collectStats_spec] at h0
      simp [collectStats_spec, h0]
    · intro hpos
      have hne : (ratingsFor fbs e.id).length ≠ 0 := by
        simp [collectStats_spec] at hpos
        omega
      simp [collectStats_spec, hne]

/-- Witness for C5: an organizer whose event 1 has ratings 5 and 3 and
whose event 2 has no feedback sees avgRating 4 with feedbackCount 2 for
event 1, and avgRating 0 with feedbackCount 0 for event 2. -/
theorem organizerDashboard_stats_witness :
    ((⟨⟨1, 100, "E1", "", "", "", 10, 0, EventStatus.completed⟩, 4, 2⟩ : EventStats) ∈
        getOrganizerDashboard 100
          [⟨1, 100, "E1", "", "", "", 10, 0, EventStatus.completed⟩,
            ⟨2, 100, "E2", "", "", "", 10, 0, EventStatus.completed⟩]
          [⟨1, 21, 5⟩, ⟨1, 22, 3⟩]) ∧
      ((⟨⟨2, 100, "E2", "", "", "", 10, 0, EventStatus.completed⟩, 0, 0⟩ : EventStats) ∈
        getOrganizerDashboard 100
          [⟨1, 100, "E1", "", "", "", 10, 0, EventStatus.completed⟩,
            ⟨2, 100, "E2", "", "", "", 10, 0, EventStatus.completed⟩]
          [⟨1, 21, 5⟩, ⟨1, 22, 3⟩]) := by
  constructor
  · have h1 := (organizerDashboard_stats 100
      [⟨1, 100, "E1", "", "", "", 10, 0, EventStatus.completed⟩,
        ⟨2, 100, "E2", "", "", "", 10, 0, EventStatus.completed⟩]
      [⟨1, 21, 5⟩, ⟨1, 22, 3⟩]).1
      ⟨1, 100, "E1", "", "", "", 10, 0, EventStatus.completed⟩ (by decide) rfl
    have he : ({ event := ⟨1, 100, "E1", "", "", "", 10, 0, EventStatus.completed⟩
                 avgRating :=
                   if (ratingsFor [⟨1, 21, 5⟩, ⟨1, 22, 3⟩] 1).length = 0 then 0
                   else round1 (((ratingsFor [⟨1, 21, 5⟩, ⟨1, 22, 3⟩] 1).sum : ℚ) /
                     ((ratingsFor [⟨1, 21, 5⟩, ⟨1, 22, 3⟩] 1).length : ℚ))
                 feedbackCount := (ratingsFor [⟨1, 21, 5⟩, ⟨1, 22, 3⟩] 1).length } :
          EventStats) =
        ⟨⟨1, 100, "E1", "", "", "", 10, 0, EventStatus.completed⟩, 4, 2⟩ := by
      have hl : ratingsFor [⟨1, 21, 5⟩, ⟨1, 22, 3⟩] 1 = [5, 3] := by decide
      rw [hl]
      norm_num [round1]
    rw [he] at h1
    exact h1
  · have h2 := (organizerDashboard_stats 100
      [⟨1, 100, "E1", "", "", "", 10, 0, EventStatus.completed⟩,
        ⟨2, 100, "E2", "", "", "", 10, 0, EventStatus.completed⟩]
      [⟨1, 21, 5⟩, ⟨1, 22, 3⟩]).1
      ⟨2, 100, "E2", "", "", "", 10, 0, EventStatus.completed⟩ (by decide) rfl
    have he : ({ event := ⟨2, 100, "E2", "", "", "", 10, 0, EventStatus.completed⟩
                 avgRating :=
                   if (ratingsFor [⟨1, 21, 5⟩, ⟨1, 22, 3⟩] 2).length = 0 then 0
                   else round1 (((ratingsFor [⟨1, 21, 5⟩, ⟨1, 22, 3⟩] 2).sum : ℚ) /
                     ((ratingsFor [⟨1, 21, 5⟩, ⟨1, 22, 3⟩] 2).length : ℚ))
                 feedbackCount := (ratingsFor [⟨1, 21, 5⟩, ⟨1, 22, 3⟩] 2).length } :
          EventStats) =
        ⟨⟨2, 100, "E2", "", "", "", 10, 0, EventStatus.completed⟩, 0, 0⟩ := by
      have hl : ratingsFor [⟨1, 21, 5⟩, ⟨1, 22, 3⟩] 2 = [] := by decide
      rw [hl]
      norm_num
    rw [he] at h2
    exact h2

/-- Number of registrations of the (eventId, userId) pair in the store. -/
def pairCount (s : CoreState) (eventId userId : Nat) : Nat :=
  (s.regs.filter (fun r => r.eventId == eventId && r.userId == userId)).length

instance {ε α : Type} [DecidableEq ε] [DecidableEq α] : DecidableEq (Except ε α) := fun a b =>
  match a, b with
  | .ok x, .ok y => decidable_of_iff (x = y) (by simp)
  | .ok _, .error _ => isFalse (by simp)
  | .error _, .ok _ => isFalse (by simp)
  | .error e, .error f => decidable_of_iff (e = f) (by simp)

/-- Claim C3: for a registration already in a terminal state, setStatus
with the target equal to the current terminal state returns the same
success result and leaves the state (hence the event counter) unchanged,
while setStatus with a different target fails with InvalidTransition. -/
theorem setStatus_terminal (s : CoreState) (regId : Nat) (r : Registration)
    (ev : Event) (target : Target) (hr : findReg s regId = some r)
    (he : findEvent s r.eventId = some ev) (hterm : r.status ≠ RegStatus.pending) :
    (r.status = target.toStatus → setStatus regId target s = .ok (r, s)) ∧
    (r.status ≠ target.toStatus → setStatus regId target s = .error CoreError.InvalidTransition) := by
  constructor
  · intro heq
    simp only [setStatus, hr, he]
    rw [if_pos heq]
  · intro hne
    simp only [setStatus, hr, he]
    rw [if_neg hne, if_pos hterm]

/-- Witness for C3: re-confirming a confirmed registration succeeds
without changing the state; rejecting it fails with InvalidTransition. -/
theorem setStatus_terminal_witness :
    (setStatus 3 Target.confirmed
        ⟨[⟨0, 9, "t", "", "", "", 2, 1, EventStatus.upcoming⟩],
          [⟨3, 0, 7, RegStatus.confirmed⟩], 1, 4⟩ =
      .ok (⟨3, 0, 7, RegStatus.confirmed⟩,
        ⟨[⟨0, 9, "t", "", "", "", 2, 1, EventStatus.upcoming⟩],
          [⟨3, 0, 7, RegStatus.confirmed⟩], 1, 4⟩)) ∧
    (setStatus 3 Target.rejected
        ⟨[⟨0, 9, "t", "", "", "", 2, 1, EventStatus.upcoming⟩],
          [⟨3, 0, 7, RegStatus.confirmed⟩], 1, 4⟩ =
      .error CoreError.InvalidTransition) := by
  constructor
  · exact (setStatus_terminal
      ⟨[⟨0, 9, "t", "", "", "", 2, 1, EventStatus.upcoming⟩],
        [⟨3, 0, 7, RegStatus.confirmed⟩], 1, 4⟩ 3
      ⟨3, 0, 7, RegStatus.confirmed⟩
      ⟨0, 9, "t", "", "", "", 2, 1, EventStatus.upcoming⟩
      Target.confirmed rfl rfl (by decide)).1 rfl
  · exact (setStatus_terminal
      ⟨[⟨0, 9, "t", "", "", "", 2, 1, EventStatus.upcoming⟩],
        [⟨3, 0, 7, RegStatus.confirmed⟩], 1, 4⟩ 3
      ⟨3, 0, 7, RegStatus.confirmed⟩
      ⟨0, 9, "t", "", "", "", 2, 1, EventStatus.upcoming⟩
      Target.rejected rfl rfl (by decide)).2 (by decide)

/-- Claim C4: after a successful requestJoin for a (eventId, userId)
pair, a second requestJoin for the same pair fails with
AlreadyRegistered, exactly one registration of the pair exists, and the
second call still fails regardless of the status the existing
registration has meanwhile been set to. -/
theorem joinEvent_unique (s : CoreState) (eventId userId : Nat) (r : Registration)
    (s₂ : CoreState) (h : requestJoin eventId userId s = .ok (r, s₂)) :
    requestJoin eventId userId s₂ = .error CoreError.AlreadyRegistered ∧
    pairCount s₂ eventId userId = 1 ∧
    (∀ st : RegStatus,
      requestJoin eventId userId { s₂ with regs := updateRegList s₂.regs r.id st } =
        .error CoreError.AlreadyRegistered) := by
  cases hfe : findEvent s eventId with
  | none => simp [requestJoin, hfe] at h
  | some ev =>
    by_cases hany : s.regs.any (fun q => q.eventId == eventId && q.userId == userId) = true
    · simp [requestJoin, hfe, hany] at h
    · have hanyf : s.regs.any (fun q => q.eventId == eventId && q.userId == userId) = false :=
        Bool.not_eq_true _ ▸ hany
      simp only [requestJoin, hfe, hanyf, Bool.false_eq_true, if_false,
        Except.ok.injEq, Prod.mk.injEq] at h
      obtain ⟨hrv, hsv⟩ := h
      subst hrv
      subst hsv
      have hfeL : s.events.find? (fun e => e.id == eventId) = some ev := hfe
      have hnofilter :
          s.regs.filter (fun q => q.eventId == eventId && q.userId == userId) = [] := by
        rw [List.filter_eq_nil_iff]
        intro q hq
        have := (List.any_eq_false.mp hanyf) q hq
        simpa using this
      refine ⟨?_, ?_, ?_⟩
      · have hany₂ :
            ((s.regs ++ [(⟨s.nextRegId, eventId, userId, RegStatus.pending⟩ : Registration)]).any
              (fun q => q.eventId == eventId && q.userId == userId)) = true := by
          simp [List.any_append]
        simp [requestJoin, findEvent, findEventL, hfeL, hany₂]
      · simp [pairCount, List.filter_append, hnofilter]
      · intro st
        have hmem : (⟨s.nextRegId, eventId, userId, st⟩ : Registration) ∈
            updateRegList
              (s.regs ++ [(⟨s.nextRegId, eventId, userId, RegStatus.pending⟩ : Registration)])
              s.nextRegId st := by
          unfold updateRegList
          refine List.mem_map.mpr
            ⟨(⟨s.nextRegId, eventId, userId, RegStatus.pending⟩ : Registration), by simp, ?_⟩
          simp
        have hany₃ :
            ((updateRegList
                (s.regs ++ [(⟨s.nextRegId, eventId, userId, RegStatus.pending⟩ : Registration)])
                s.nextRegId st).any
              (fun q => q.eventId == eventId && q.userId == userId)) = true := by
          apply List.any_eq_true.mpr
          exact ⟨_, hmem, by simp⟩
        simp [requestJoin, findEvent, findEventL, hfeL, hany₃]

/-- Witness for C4: user 7 joining event 0 twice in an otherwise empty
store gets AlreadyRegistered on the second call, with one registration
row for the pair. -/
theorem joinEvent_unique_witness :
    requestJoin 0 7 (applyOp (Op.requestJoin 0 7)
        (applyOp (Op.createEvent 9 5 "t" "d" "l" "c") initState)) =
      .error CoreError.AlreadyRegistered ∧
    pairCount (applyOp (Op.requestJoin 0 7)
        (applyOp (Op.createEvent 9 5 "t" "d" "l" "c") initState)) 0 7 = 1 := by
  have h := joinEvent_unique (applyOp (Op.createEvent 9 5 "t" "d" "l" "c") initState)
    0 7 ⟨0, 0, 7, RegStatus.pending⟩
    (applyOp (Op.requestJoin 0 7) (applyOp (Op.createEvent 9 5 "t" "d" "l" "c") initState))
    (by decide)
  exact ⟨h.1, h.2.1⟩

/-- The state of the race scenario of the spec: one event with
maxVolunteers 1 and two pending registrations (ids 0 and 1), built by
running the client operations from the empty store. -/
def raceState : CoreState :=
  execOps [Op.createEvent 100 1 "t" "d" "l" "c", Op.requestJoin 0 1, Op.requestJoin 0 2]
    initState

/-- Claim C2: with maxVolunteers 1 and two pending registrations, the two
setStatus confirmations serialized by the per-event critical section end
with exactly one success and one QuotaExceeded in either serialization
order, and the final currentVolunteers is 1. -/
theorem race_single_winner :
    ((setStatus 0 Target.confirmed raceState).isOk = true ∧
      setStatus 1 Target.confirmed (applyOp (Op.setStatus 0 Target.confirmed) raceState) =
        .error CoreError.QuotaExceeded ∧
      (findEvent (applyOp (Op.setStatus 1 Target.confirmed)
          (applyOp (Op.setStatus 0 Target.confirmed) raceState)) 0).map
          Event.currentVolunteers = some 1) ∧
    ((setStatus 1 Target.confirmed raceState).isOk = true ∧
      setStatus 0 Target.confirmed (applyOp (Op.setStatus 1 Target.confirmed) raceState) =
        .error CoreError.QuotaExceeded ∧
      (findEvent (applyOp (Op.setStatus 0 Target.confirmed)
          (applyOp (Op.setStatus 1 Target.confirmed) raceState)) 0).map
          Event.currentVolunteers = some 1) := by
  decide

/- ==========================================
   Claim C1: capacity invariant on all reachable states
   ========================================== -/

/-- The data-model invariant of the EventStore made inductive: every
event respects its quota, event ids are pairwise distinct, and every
event id is below the fresh-id counter. -/
def CapInv (s : CoreState) : Prop :=
  (∀ e ∈ s.events, e.currentVolunteers ≤ e.maxVolunteers) ∧
  (s.events.map Event.id).Nodup ∧
  (∀ e ∈ s.events, e.id < s.nextEventId)

/-- A row update along a key-preserving function does not change the
key column. -/
theorem updateEventList_map_id (events : List Event) (i : Nat) (f : Event → Event)
    (hf : ∀ e, (f e).id = e.id) :
    (updateEventList events i f).map Event.id = events.map Event.id := by
  unfold updateEventList
  rw [List.map_map]
  apply List.map_congr_left
  intro a _
  by_cases h : a.id = i <;> simp [Function.comp, h, hf]

/-- Every row of a row update comes from a row of the table. -/
theorem mem_updateEventList {events : List Event} {i : Nat} {f : Event → Event} {x : Event}
    (hx : x ∈ updateEventList events i f) :
    ∃ a ∈ events, x = if a.id == i then f a else a := by
  unfold updateEventList at hx
  obtain ⟨a, ha, hax⟩ := List.mem_map.mp hx
  exact ⟨a, ha, hax.symm⟩

/-- A successful event lookup returns a member of the table carrying the
looked-up id. -/
theorem findEventL_mem {events : List Event} {i : Nat} {ev : Event}
    (h : findEventL events i = some ev) : ev ∈ events ∧ ev.id = i := by
  refine ⟨List.mem_of_find?_eq_some h, ?_⟩
  have := List.find?_some h
  simpa using this

/-- A successful requestJoin leaves the event table and the event id
counter unchanged. -/
theorem requestJoin_ok_state (eventId userId : Nat) (s : CoreState) (r : Registration)
    (s₂ : CoreState) (h : requestJoin eventId userId s = .ok (r, s₂)) :
    s₂.events = s.events ∧ s₂.nextEventId = s.nextEventId := by
  cases hfe : findEvent s eventId with
  | none => simp [requestJoin, hfe] at h
  | some ev =>
    by_cases hany : s.regs.any (fun q => q.eventId == eventId && q.userId == userId) = true
    · simp [requestJoin, hfe, hany] at h
    · have hanyf : s.regs.any (fun q => q.eventId == eventId && q.userId == userId) = false :=
        Bool.not_eq_true _ ▸ hany
      simp only [requestJoin, hfe, hanyf, Bool.false_eq_true, if_false,
        Except.ok.injEq, Prod.mk.injEq] at h
      obtain ⟨-, hsv⟩ := h
      rw [← hsv]
      exact ⟨rfl, rfl⟩

/-- A successful setStatus either leaves the event table unchanged
(rejection or idempotent return) or increments the counter of the
confirmed event, whose quota was checked to be available. -/
theorem setStatus_ok_state (regId : Nat) (target : Target) (s : CoreState)
    (r : Registration) (s₂ : CoreState) (hok : setStatus regId target s = .ok (r, s₂)) :
    (s₂.events = s.events ∧ s₂.nextEventId = s.nextEventId) ∨
    (∃ r₀ ev, findReg s regId = some r₀ ∧ findEvent s r₀.eventId = some ev ∧
      ev.currentVolunteers ≠ ev.maxVolunteers ∧
      s₂.events = updateEventList s.events ev.id
        (fun e => { e with currentVolunteers := e.currentVolunteers + 1 }) ∧
      s₂.nextEventId = s.nextEventId) := by
  cases hfr : findReg s regId with
  | none => simp [setStatus, hfr] at hok
  | some r₀ =>
    cases hfe : findEvent s r₀.eventId with
    | none => simp [setStatus, hfr, hfe] at hok
    | some ev =>
      by_cases hidem : r₀.status = target.toStatus
      · simp only [setStatus, hfr, hfe, if_pos hidem, Except.ok.injEq,
          Prod.mk.injEq] at hok
        obtain ⟨-, hsv⟩ := hok
        rw [← hsv]
        exact Or.inl ⟨rfl, rfl⟩
      · by_cases hpend : r₀.status ≠ RegStatus.pending
        · simp [setStatus, hfr, hfe, if_neg hidem, if_pos hpend] at hok
        · cases target with
          | rejected =>
            simp only [setStatus, hfr, hfe, if_neg hidem, if_neg hpend,
              Except.ok.injEq, Prod.mk.injEq] at hok
            obtain ⟨-, hsv⟩ := hok
            rw [← hsv]
            exact Or.inl ⟨rfl, rfl⟩
          | confirmed =>
            by_cases hq : ev.currentVolunteers = ev.maxVolunteers
            · simp [setStatus, hfr, hfe, if_neg hidem, if_neg hpend, hq] at hok
            · simp only [setStatus, hfr, hfe, if_neg hidem, if_neg hpend, if_neg hq,
                Except.ok.injEq, Prod.mk.injEq] at hok
              obtain ⟨-, hsv⟩ := hok
              rw [← hsv]
              exact Or.inr ⟨r₀, ev, rfl, hfe, hq, rfl, rfl⟩

/-- A successful createEvent appends a fresh upcoming event with zero
confirmed volunteers and advances the id counter. -/
theorem createEvent_ok_state (organizerId maxV : Nat) (t d l c : String) (s : CoreState)
    (e : Event) (s₂ : CoreState)
    (hok : createEvent organizerId maxV t d l c s = .ok (e, s₂)) :
    s₂.events = s.events ++
      [⟨s.nextEventId, organizerId, t, d, l, c, maxV, 0, EventStatus.upcoming⟩] ∧
    s₂.nextEventId = s.nextEventId + 1 := by
  by_cases hm : maxV = 0
  · simp [createEvent, hm] at hok
  · simp only [createEvent, hm, if_false, Except.ok.injEq, Prod.mk.injEq] at hok
    obtain ⟨-, hsv⟩ := hok
    rw [← hsv]
    exact ⟨rfl, rfl⟩

/-- A successful updateEvent rewrites the details of the found event
after validating the new quota against the current counter; the counter,
status and ids are untouched. -/
theorem updateEvent_ok_state (eventId maxV : Nat) (t d l c : String) (s : CoreState)
    (e : Event) (s₂ : CoreState)
    (hok : updateEvent eventId maxV t d l c s = .ok (e, s₂)) :
    ∃ ev, findEvent s eventId = some ev ∧ ¬ maxV < ev.currentVolunteers ∧
      s₂.events = updateEventList s.events ev.id
        (fun x =>
          { x with
            title := t, date := d, location := l, category := c,
            maxVolunteers := maxV }) ∧
      s₂.nextEventId = s.nextEventId := by
  cases hfe : findEvent s eventId with
  | none => simp [updateEvent, hfe] at hok
  | some ev =>
    by_cases hm : maxV = 0
    · simp [updateEvent, hfe, hm] at hok
    · by_cases hlt : maxV < ev.currentVolunteers
      · simp [updateEvent, hfe, hm, hlt] at hok
      · simp only [updateEvent, hfe, hm, hlt, if_false, Except.ok.injEq,
          Prod.mk.injEq] at hok
        obtain ⟨-, hsv⟩ := hok
        rw [← hsv]
        exact ⟨ev, rfl, hlt, rfl, rfl⟩

/-- A successful setEventStatus rewrites the status of the found event,
with the reversal of a completed event already rejected; counters, ids
and the capacity columns are untouched. -/
theorem setEventStatus_ok_state (eventId : Nat) (target : EventStatus) (s : CoreState)
    (e : Event) (s₂ : CoreState)
    (hok : setEventStatus eventId target s = .ok (e, s₂)) :
    ∃ ev, findEvent s eventId = some ev ∧
      ¬ (ev.status = EventStatus.completed ∧ target = EventStatus.upcoming) ∧
      s₂.events = updateEventList s.events ev.id (fun x => { x with status := target }) ∧
      s₂.nextEventId = s.nextEventId := by
  cases hfe : findEvent s eventId with
  | none => simp [setEventStatus, hfe] at hok
  | some ev =>
    by_cases hrev : ev.status = EventStatus.completed ∧ target = EventStatus.upcoming
    · simp [setEventStatus, hfe, hrev] at hok
    · simp only [setEventStatus, hfe, hrev, if_false, Except.ok.injEq,
        Prod.mk.injEq] at hok
      obtain ⟨-, hsv⟩ := hok
      rw [← hsv]
      exact ⟨ev, rfl, hrev, rfl, rfl⟩

/-- Every operation preserves the capacity invariant. -/
theorem capInv_applyOp (op : Op) (s : CoreState) (h : CapInv s) : CapInv (applyOp op s) := by
  obtain ⟨hcap, hnodup, hlt⟩ := h
  cases op with
  | requestJoin eventId userId =>
    simp only [applyOp]
    cases hj : requestJoin eventId userId s with
    | error e => exact ⟨hcap, hnodup, hlt⟩
    | ok x =>
      obtain ⟨hev, hnext⟩ := requestJoin_ok_state eventId userId s x.1 x.2 (by rw [hj])
      unfold CapInv
      rw [hev, hnext]
      exact ⟨hcap, hnodup, hlt⟩
  | setStatus regId target =>
    simp only [applyOp]
    cases hj : setStatus regId target s with
    | error e => exact ⟨hcap, hnodup, hlt⟩
    | ok x =>
      rcases setStatus_ok_state regId target s x.1 x.2 (by rw [hj]) with
        ⟨hev, hnext⟩ | ⟨r₀, ev, hfr, hfe, hq, hev, hnext⟩
      · unfold CapInv
        rw [hev, hnext]
        exact ⟨hcap, hnodup, hlt⟩
      · obtain ⟨hmem, -⟩ := findEventL_mem hfe
        refine ⟨?_, ?_, ?_⟩
        · intro e he
          rw [hev] at he
          obtain ⟨a, ha, hae⟩ := mem_updateEventList he
          by_cases hb : a.id = ev.id
          · have haev : a = ev :=
              List.inj_on_of_nodup_map hnodup ha hmem hb
            subst haev
            have h1 : a.currentVolunteers ≤ a.maxVolunteers := hcap a ha
            rw [hae]
            simp [hb]
            omega
          · rw [hae]
            simp [hb]
            exact hcap a ha
        · rw [hev, updateEventList_map_id s.events ev.id
            (fun e => { e with currentVolunteers := e.currentVolunteers + 1 }) (fun e => rfl)]
          exact hnodup
        · intro e he
          rw [hev] at he
          rw [hnext]
          obtain ⟨a, ha, hae⟩ := mem_updateEventList he
          have : e.id = a.id := by
            rw [hae]
            by_cases hb : a.id = ev.id <;> simp [hb]
          rw [this]
          exact hlt a ha
  | createEvent organizerId maxV t d l c =>
    simp only [applyOp]
    cases hj : createEvent organizerId maxV t d l c s with
    | error e => exact ⟨hcap, hnodup, hlt⟩
    | ok x =>
      obtain ⟨hev, hnext⟩ := createEvent_ok_state organizerId maxV t d l c s x.1 x.2
        (by rw [hj])
      refine ⟨?_, ?_, ?_⟩
      · intro e he
        rw [hev] at he
        rcases List.mem_append.mp he with hin | hin
        · exact hcap e hin
        · rw [List.mem_singleton.mp hin]
          exact Nat.zero_le _
      · rw [hev, List.map_append]
        rw [List.nodup_append]
        refine ⟨hnodup, by simp, ?_⟩
        intro a ha hb
        simp only [List.map_cons, List.map_nil, List.mem_singleton] at hb
        obtain ⟨e, he, hae⟩ := List.mem_map.mp ha
        have := hlt e he
        omega
      · intro e he
        rw [hev] at he
        rw [hnext]
        rcases List.mem_append.mp he with hin | hin
        · have := hlt e hin
          omega
        · rw [List.mem_singleton.mp hin]
          simp
  | updateEvent eventId maxV t d l c =>
    simp only [applyOp]
    cases hj : updateEvent eventId maxV t d l c s with
    | error e => exact ⟨hcap, hnodup, hlt⟩
    | ok x =>
      obtain ⟨ev, hfe, hcv, hev, hnext⟩ := updateEvent_ok_state eventId maxV t d l c s
        x.1 x.2 (by rw [hj])
      obtain ⟨hmem, -⟩ := findEventL_mem hfe
      refine ⟨?_, ?_, ?_⟩
      · intro e he
        rw [hev] at he
        obtain ⟨a, ha, hae⟩ := mem_updateEventList he
        by_cases hb : a.id = ev.id
        · have haev : a = ev :=
            List.inj_on_of_nodup_map hnodup ha hmem hb
          subst haev
          rw [hae]
          simp [hb]
          omega
        · rw [hae]
          simp [hb]
          exact hcap a ha
      · rw [hev, updateEventList_map_id s.events ev.id
          (fun x =>
            { x with
              title := t, date := d, location := l, category := c,
              maxVolunteers := maxV }) (fun e => rfl)]
        exact hnodup
      · intro e he
        rw [hev] at he
        rw [hnext]
        obtain ⟨a, ha, hae⟩ := mem_updateEventList he
        have : e.id = a.id := by
          rw [hae]
          by_cases hb : a.id = ev.id <;> simp [hb]
        rw [this]
        exact hlt a ha
  | setEventStatus eventId target =>
    simp only [applyOp]
    cases hj : setEventStatus eventId target s with
    | error e => exact ⟨hcap, hnodup, hlt⟩
    | ok x =>
      obtain ⟨ev, hfe, -, hev, hnext⟩ := setEventStatus_ok_state eventId target s
        x.1 x.2 (by rw [hj])
      refine ⟨?_, ?_, ?_⟩
      · intro e he
        rw [hev] at he
        obtain ⟨a, ha, hae⟩ := mem_updateEventList he
        have h1 : e.currentVolunteers = a.currentVolunteers ∧
            e.maxVolunteers = a.maxVolunteers := by
          rw [hae]
          by_cases hb : a.id = ev.id <;> simp [hb]
        have := hcap a ha
        omega
      · rw [hev, updateEventList_map_id s.events ev.id
          (fun x => { x with status := target }) (fun e => rfl)]
        exact hnodup
      · intro e he
        rw [hev] at he
        rw [hnext]
        obtain ⟨a, ha, hae⟩ := mem_updateEventList he
        have : e.id = a.id := by
          rw [hae]
          by_cases hb : a.id = ev.id <;> simp [hb]
        rw [this]
        exact hlt a ha

/-- The capacity invariant holds in the empty store. -/
theorem capInv_init : CapInv initState := by
  refine ⟨?_, ?_, ?_⟩ <;> simp [CapInv, initState]

/-- The capacity invariant is preserved by every operation sequence. -/
theorem capInv_execOps (ops : List Op) (s : CoreState) (h : CapInv s) :
    CapInv (execOps ops s) := by
  induction ops generalizing s with
  | nil => exact h
  | cons op rest ih => exact ih (applyOp op s) (capInv_applyOp op s h)

/-- Claim C1: on every state reachable from the empty store by client
operations (requestJoin, setStatus, createEvent, updateEvent,
setEventStatus), every event satisfies
0 le currentVolunteers le maxVolunteers. -/
theorem capacity_invariant (ops : List Op) :
    ∀ e ∈ (execOps ops initState).events,
      0 ≤ e.currentVolunteers ∧ e.currentVolunteers ≤ e.maxVolunteers := by
  intro e he
  exact ⟨Nat.zero_le _, (capInv_execOps ops initState capInv_init).1 e he⟩

/-- Witness for C1: after creating a one-slot event, one join and one
confirmation, the resulting event holds the invariant with counter 1. -/
theorem capacity_invariant_witness :
    0 ≤ (⟨0, 100, "t", "d", "l", "c", 1, 1, EventStatus.upcoming⟩ : Event).currentVolunteers ∧
      (⟨0, 100, "t", "d", "l", "c", 1, 1, EventStatus.upcoming⟩ : Event).currentVolunteers ≤
        (⟨0, 100, "t", "d", "l", "c", 1, 1, EventStatus.upcoming⟩ : Event).maxVolunteers :=
  capacity_invariant
    [Op.createEvent 100 1 "t" "d" "l" "c", Op.requestJoin 0 1, Op.setStatus 0 Target.confirmed]
    ⟨0, 100, "t", "d", "l", "c", 1, 1, EventStatus.upcoming⟩ (by decide)

/- ==========================================
   Claim C8: completed is terminal for event status
   ========================================== -/

/-- Lookup after a key-preserving row update returns the update image of
the original lookup. -/
theorem findEventL_updateEventList (events : List Event) (j : Nat) (f : Event → Event)
    (hf : ∀ e, (f e).id = e.id) (i : Nat) :
    findEventL (updateEventList events j f) i =
      (findEventL events i).map (fun e => if e.id == j then f e else e) := by
  unfold findEventL updateEventList
  rw [List.find?_map]
  have harg : ((fun e : Event => e.id == i) ∘ (fun e => if e.id == j then f e else e)) =
      (fun e : Event => e.id == i) := by
    funext a
    by_cases h : a.id = j <;> simp [Function.comp, h, hf]
  rw [harg]

/-- Lookup is unchanged by appending rows when it already succeeds. -/
theorem findEventL_append_left {events : List Event} {i : Nat} {ev : Event}
    (h : findEventL events i = some ev) (l₂ : List Event) :
    findEventL (events ++ l₂) i = some ev := by
  unfold findEventL at h ⊢
  rw [List.find?_append, h]
  rfl

/-- One operation never moves an event out of the completed status: the
event found at any id stays present, and stays completed if it was. -/
theorem completed_stays_applyOp (op : Op) (s : CoreState) (i : Nat) (ev : Event)
    (hfind : findEvent s i = some ev) (hc : ev.status = EventStatus.completed) :
    ∃ ev₂, findEvent (applyOp op s) i = some ev₂ ∧ ev₂.status = EventStatus.completed := by
  have hid : ev.id = i := (findEventL_mem hfind).2
  have hfindL : findEventL s.events i = some ev := hfind
  cases op with
  | requestJoin eventId userId =>
    simp only [applyOp]
    cases hj : requestJoin eventId userId s with
    | error e => exact ⟨ev, hfind, hc⟩
    | ok x =>
      obtain ⟨hev, -⟩ := requestJoin_ok_state eventId userId s x.1 x.2 (by rw [hj])
      refine ⟨ev, ?_, hc⟩
      show findEventL x.2.events i = some ev
      rw [hev]
      exact hfind
  | createEvent organizerId maxV t d l c =>
    simp only [applyOp]
    cases hj : createEvent organizerId maxV t d l c s with
    | error e => exact ⟨ev, hfind, hc⟩
    | ok x =>
      obtain ⟨hev, -⟩ := createEvent_ok_state organizerId maxV t d l c s x.1 x.2 (by rw [hj])
      refine ⟨ev, ?_, hc⟩
      show findEventL x.2.events i = some ev
      rw [hev]
      exact findEventL_append_left hfind _
  | setStatus regId target =>
    simp only [applyOp]
    cases hj : setStatus regId target s with
    | error e => exact ⟨ev, hfind, hc⟩
    | ok x =>
      rcases setStatus_ok_state regId target s x.1 x.2 (by rw [hj]) with
        ⟨hev, -⟩ | ⟨r₀, ev₀, -, -, -, hev, -⟩
      · refine ⟨ev, ?_, hc⟩
        show findEventL x.2.events i = some ev
        rw [hev]
        exact hfind
      · refine ⟨if ev.id == ev₀.id then
            { ev with currentVolunteers := ev.currentVolunteers + 1 } else ev, ?_, ?_⟩
        · show findEventL x.2.events i = some _
          rw [hev, findEventL_updateEventList s.events ev₀.id
            (fun e => { e with currentVolunteers := e.currentVolunteers + 1 })
            (fun e => rfl) i, hfindL]
          rfl
        · by_cases hb : ev.id = ev₀.id <;> simp [hb, hc]
  | updateEvent eventId maxV t d l c =>
    simp only [applyOp]
    cases hj : updateEvent eventId maxV t d l c s with
    | error e => exact ⟨ev, hfind, hc⟩
    | ok x =>
      obtain ⟨ev₀, -, -, hev, -⟩ := updateEvent_ok_state eventId maxV t d l c s x.1 x.2
        (by rw [hj])
      refine ⟨if ev.id == ev₀.id then
          ({ ev with
            title := t, date := d, location := l, category := c,
            maxVolunteers := maxV } : Event) else ev, ?_, ?_⟩
      · show findEventL x.2.events i = some _
        rw [hev, findEventL_updateEventList s.events ev₀.id
          (fun x =>
            { x with
              title := t, date := d, location := l, category := c,
              maxVolunteers := maxV })
          (fun e => rfl) i, hfindL]
        rfl
      · by_cases hb : ev.id = ev₀.id <;> simp [hb, hc]
  | setEventStatus eventId target =>
    simp only [applyOp]
    cases hj : setEventStatus eventId target s with
    | error e => exact ⟨ev, hfind, hc⟩
    | ok x =>
      obtain ⟨ev₀, hfe₀, hnr, hev, -⟩ := setEventStatus_ok_state eventId target s x.1 x.2
        (by rw [hj])
      have hid₀ : ev₀.id = eventId := (findEventL_mem hfe₀).2
      by_cases hb : ev.id = ev₀.id
      · have hieq : eventId = i := by rw [← hid₀, ← hb, hid]
        have hevev : ev₀ = ev := by
          rw [hieq] at hfe₀
        
          rw [hfind] at hfe₀
          exact ((Option.some.injEq _ _).mp hfe₀.symm).symm.symm
        have htc : target = EventStatus.completed := by
          cases target with
          | completed => rfl
          | upcoming => exact absurd ⟨by rw [hevev, hc], rfl⟩ hnr
        refine ⟨{ ev with status := target }, ?_, by simpa using htc⟩
        show findEventL x.2.events i = some _
        rw [hev, findEventL_updateEventList s.events ev₀.id
          (fun x => { x with status := target }) (fun e => rfl) i, hfindL]
        simp [hb]
      · refine ⟨ev, ?_, hc⟩
        show findEventL x.2.events i = some ev
        rw [hev, findEventL_updateEventList s.events ev₀.id
          (fun x => { x with status := target }) (fun e => rfl) i, hfindL]
        simp [hb]

/-- Claim C8: event status only ever transitions from upcoming to
completed, and completed is terminal: along every operation sequence, an
event once completed is still found and still completed afterwards, so
no reachable sequence moves an event from completed back to upcoming. -/
theorem completed_status_terminal (ops : List Op) (s : CoreState) (i : Nat) (ev : Event)
    (hfind : findEvent s i = some ev) (hc : ev.status = EventStatus.completed) :
    ∃ ev₂, findEvent (execOps ops s) i = some ev₂ ∧
      ev₂.status = EventStatus.completed := by
  induction ops generalizing s ev with
  | nil => exact ⟨ev, hfind, hc⟩
  | cons op rest ih =>
    obtain ⟨ev₂, h₂, hc₂⟩ := completed_stays_applyOp op s i ev hfind hc
    exact ih (applyOp op s) ev₂ h₂ hc₂

/-- Witness for C8: a completed event stays completed across a reversal
attempt, an update and a join. -/
theorem completed_status_terminal_witness :
    ∃ ev₂, findEvent (execOps
        [Op.setEventStatus 0 EventStatus.upcoming, Op.updateEvent 0 9 "t2" "d2" "l2" "c2",
          Op.requestJoin 0 5]
        ⟨[⟨0, 100, "t", "d", "l", "c", 5, 2, EventStatus.completed⟩], [], 1, 0⟩) 0 =
        some ev₂ ∧
      ev₂.status = EventStatus.completed :=
  completed_status_terminal
    [Op.setEventStatus 0 EventStatus.upcoming, Op.updateEvent 0 9 "t2" "d2" "l2" "c2",
      Op.requestJoin 0 5]
    ⟨[⟨0, 100, "t", "d", "l", "c", 5, 2, EventStatus.completed⟩], [], 1, 0⟩ 0
    ⟨0, 100, "t", "d", "l", "c", 5, 2, EventStatus.completed⟩ (by decide) rfl

end SULAM
